import Mathlib

/-!
Verification of the reconciliation core of `src/app.py` (Gemini order-diagnosis
tool).  The two components with decision logic are embedded here:

* `clean_and_convert_to_numeric` (app.py lines 73-84): best-effort extraction
  of a float from a raw recognized field;
* `recalculate_dataframe` (app.py lines 87-111): per-row reconciliation of
  quantity × unit price against the recognized line total, with a diagnostic
  status, and guarded implied-quantity / implied-unit-price divisions;
* the export-stage empty-name row filter (app.py lines 222-226).

Python/numpy floats are modelled as exact rationals extended with the IEEE
special values `inf`, `-inf` and `nan` (numpy uses `nan` as the missing-value
marker, so `nan` plays the role of `Missing`).  Mantissa rounding error and
signed zero are not modelled; none of the properties below depend on them.
The finite *range* of doubles is modelled where it is load-bearing: the
overflow threshold `ovfBound = 2^1024 - 2^970` (the smallest real that
rounds to infinity under round-to-nearest-even) governs the range-aware
companion definitions `cleanDouble` (whose int branch raises `OverflowError`
beyond the threshold and whose string branch saturates to `inf`, exactly as
`float()` does) and `PyFloat.divDouble` (whose finite quotients saturate to
a signed infinity at the threshold, as numpy division does).  The idealized
`clean_and_convert_to_numeric` and `PyFloat.div` agree with them below the
threshold (`cleanDouble_agrees`) and are used for the properties that do not
depend on range.
-/

attribute [local semireducible] Rat.mul Rat.add Rat.sub Rat.inv

set_option maxRecDepth 8000

set_option exponentiation.threshold 1100

/-- Python/numpy float value: a finite rational, an infinity, or `nan`.
`nan` doubles as the `Missing` marker (`np.nan`), as in the code. -/
inductive PyFloat where
  | finite (q : ℚ)
  | inf
  | negInf
  | nan
deriving DecidableEq, Repr

namespace PyFloat

/-- `pandas.isna` on a float: true exactly for `nan`. -/
def isNan : PyFloat → Bool
  | nan => true
  | _ => false

/-- True exactly for finite values. -/
def isFinite : PyFloat → Bool
  | finite _ => true
  | _ => false

/-- True exactly for `inf` and `-inf`. -/
def isInf : PyFloat → Bool
  | inf => true
  | negInf => true
  | _ => false

/-- IEEE multiplication as numpy performs it (`nan` propagates,
`inf * 0 = nan`). -/
def mul : PyFloat → PyFloat → PyFloat
  | nan, _ => nan
  | _, nan => nan
  | finite a, finite b => finite (a * b)
  | finite a, inf => if 0 < a then inf else if a < 0 then negInf else nan
  | finite a, negInf => if 0 < a then negInf else if a < 0 then inf else nan
  | inf, finite b => if 0 < b then inf else if b < 0 then negInf else nan
  | negInf, finite b => if 0 < b then negInf else if b < 0 then inf else nan
  | inf, inf => inf
  | inf, negInf => negInf
  | negInf, inf => negInf
  | negInf, negInf => inf

/-- IEEE division as numpy performs it (`nan` propagates, `x / 0` gives a
signed infinity or `nan`, finite over infinite gives `0`). -/
def div : PyFloat → PyFloat → PyFloat
  | nan, _ => nan
  | _, nan => nan
  | finite a, finite b =>
      if b = 0 then (if a = 0 then nan else if 0 < a then inf else negInf)
      else finite (a / b)
  | finite _, inf => finite 0
  | finite _, negInf => finite 0
  | inf, finite b => if 0 ≤ b then inf else negInf
  | negInf, finite b => if 0 ≤ b then negInf else inf
  | _, _ => nan

/-- The numpy elementwise test `x != 0` (note `nan != 0` and `inf != 0` are
both true), used as the division guard in `np.where`. -/
def neq0 : PyFloat → Bool
  | finite q => decide (q ≠ 0)
  | _ => true

end PyFloat

/-- Computable floor of a rational, as in `Rat.floor_def`. -/
def qfloor (q : ℚ) : ℤ := q.num / (q.den : ℤ)

/-- Round half to even to the nearest integer, the rounding numpy's `round`
uses (ideally, ignoring binary representation error). -/
def rhe (q : ℚ) : ℤ :=
  if q - qfloor q < 1/2 then qfloor q
  else if 1/2 < q - qfloor q then qfloor q + 1
  else if qfloor q % 2 = 0 then qfloor q else qfloor q + 1

/-- Round a rational half-even to 2 decimal places, as `.round(2)` does. -/
def round2q (q : ℚ) : ℚ := (rhe (q * 100) : ℚ) / 100

namespace PyFloat

/-- `Series.round(2)`: half-even rounding to 2 decimals; `nan` and the
infinities are fixed points. -/
def round2 : PyFloat → PyFloat
  | finite q => finite (round2q q)
  | x => x

/-- `Series.round()`: half-even rounding to the nearest integer (kept as a
float), `nan` and infinities fixed. -/
def roundInt : PyFloat → PyFloat
  | finite q => finite ((rhe q : ℚ))
  | x => x

end PyFloat

/-- `np.isclose` with its default tolerances: for finite arguments
`|a - b| <= atol + rtol * |b|` with `atol = 1e-8`, `rtol = 1e-5`; equal
infinities compare close; anything involving `nan` does not. -/
def npIsclose : PyFloat → PyFloat → Bool
  | .finite a, .finite b => decide (|a - b| ≤ 1/100000000 + |b| / 100000)
  | .inf, .inf => true
  | .negInf, .negInf => true
  | _, _ => false

/-- Python value universe for a recognized cell: `None`, a string, or a
number (int or float), the types that reach `clean_and_convert_to_numeric`
from the JSON-decoded dataframe. -/
inductive PyVal where
  | vNone
  | vStr (s : String)
  | vInt (n : Int)
  | vFloat (x : PyFloat)
deriving DecidableEq, Repr

/-- Python `value.strip() == ""` for a string: every character is whitespace
(the exotic extra whitespace of Python's `strip`, such as form feed, is not
modelled; no claim involves it). -/
def strBlank (s : String) : Bool := s.data.all Char.isWhitespace

/-- Start codepoints of the decimal-digit runs of the Unicode database
(category `Nd`): each start opens a contiguous run `start .. start + 9`
whose characters carry the decimal values `0 .. 9`.  Python's `\d` in a str
pattern matches exactly these characters, and `float()` parses them. -/
def ndStarts : List Nat :=
  [48, 1632, 1776, 1984, 2406, 2534, 2662, 2790, 2918, 3046, 3174, 3302,
   3430, 3558, 3664, 3792, 3872, 4160, 4240, 6112, 6160, 6470, 6608, 6784,
   6800, 6992, 7088, 7232, 7248, 42528, 43216, 43264, 43472, 43504, 43600,
   44016, 65296, 66720, 68912, 69734, 69872, 69942, 70096, 70384, 70736,
   70864, 71248, 71360, 71472, 71904, 72016, 72784, 73040, 73120, 92768,
   92864, 93008, 120782, 120792, 120802, 120812, 120822, 123200, 123632,
   125264, 130032]

/-- Decimal value of a character under Python's `\d` (Unicode category
`Nd`), `none` for a non-digit. -/
def pyDigitVal (c : Char) : Option Nat :=
  ndStarts.findSome? fun s =>
    if s ≤ c.toNat ∧ c.toNat ≤ s + 9 then some (c.toNat - s) else none

/-- Python's `\d`: a Unicode decimal digit (so `"１２３"` and `"٣"` count as
digit runs, exactly as `re` treats them). -/
def isPyDigit (c : Char) : Bool := (pyDigitVal c).isSome

/-- Character class of the regex `[\d\.]+`: a Unicode decimal digit or the
ASCII dot. -/
def isNumChar (c : Char) : Bool := isPyDigit c || c == '.'

/-- First match of `re.findall(r'[\d\.]+', s)`: the first maximal run of
digits/dots, or `none` when the string has no such character. -/
def firstRunAux : List Char → Option (List Char)
  | [] => none
  | c :: cs => if isNumChar c then some (c :: cs.takeWhile isNumChar) else firstRunAux cs

/-- Value of a list of decimal digit characters read in base 10, each digit
contributing its Unicode decimal value (as CPython's `float()` converts
non-ASCII digits). -/
def digitsVal (l : List Char) : Nat :=
  l.foldl (fun a c => a * 10 + (pyDigitVal c).getD 0) 0

/-- Python `float()` applied to a run of digits and dots: it succeeds exactly
when the run has at most one dot and at least one digit (so `"12.5.3"`,
`"."`, `".."` fail; `"5."`, `".5"` succeed), and the value is the exact
decimal it denotes (overflow to `inf` at the double range is applied by
`cleanDouble`, not here). -/
def parseRun (l : List Char) : Option ℚ :=
  if l.count '.' ≤ 1 ∧ l.any isPyDigit then
    some ((digitsVal (l.takeWhile (fun c => c ≠ '.')) : ℚ) +
      (digitsVal ((l.dropWhile (fun c => c ≠ '.')).drop 1) : ℚ) /
        (10 : ℚ) ^ ((l.dropWhile (fun c => c ≠ '.')).drop 1).length)
  else none

/-- `clean_and_convert_to_numeric` (app.py lines 73-84): `None` and
blank strings give `nan`; an int or float is returned as a float unchanged;
otherwise the first `[\d\.]+` run of the string is parsed with `float()`,
any failure giving `nan`.  This version idealizes the double range (every
int converts, every parsed run is an exact rational); `cleanDouble` below is
the same function with the range behavior of `float()` at both call sites. -/
def clean_and_convert_to_numeric : PyVal → PyFloat
  | .vNone => .nan
  | .vStr s =>
      if strBlank s then .nan
      else
        match firstRunAux s.data with
        | none => .nan
        | some run =>
          match parseRun run with
          | none => .nan
          | some q => .finite q

  | .vInt n => .finite (n : ℚ)
  | .vFloat x => x

/-- IEEE double overflow threshold `2^1024 - 2^970`, the smallest magnitude
that rounds to infinity under round-to-nearest-even: `float(n)` raises
`OverflowError` for an int with `|n|` at or above it, and `float()` on a
decimal string at or above it returns `inf`. -/
def ovfBoundNat : ℕ := 2 ^ 1024 - 2 ^ 970

/-- The overflow threshold as a rational. -/
def ovfBound : ℚ := (ovfBoundNat : ℚ)

/-- `float()` of a nonnegative decimal value with the double range: the
value, saturating to `inf` at the overflow threshold (runs carry no sign,
so only `+inf` can arise). -/
def floatOfPos (q : ℚ) : PyFloat := if ovfBound ≤ q then .inf else .finite q

/-- `clean_and_convert_to_numeric` with the IEEE double range at its two
`float()` call sites: the int branch raises `OverflowError` beyond the
threshold (modelled as `none`), and a parsed digit run saturates to `inf`
at the threshold.  Everywhere else it agrees with the idealized
`clean_and_convert_to_numeric` (`cleanDouble_agrees`). -/
def cleanDouble : PyVal → Option PyFloat
  | .vNone => some .nan
  | .vStr s =>
      if strBlank s then some .nan
      else
        match firstRunAux s.data with
        | none => some .nan
        | some run =>
          match parseRun run with
          | none => some .nan
          | some q => some (floatOfPos q)

  | .vInt n => if ovfBoundNat ≤ n.natAbs then none else some (.finite (n : ℚ))
  | .vFloat x => some x

/-- The int inputs on which the source's `float(value)` raises
`OverflowError`: magnitude at or above the overflow threshold. -/
def intOverflows : PyVal → Bool
  | .vInt n => decide (ovfBoundNat ≤ n.natAbs)
  | _ => false

/-- The string inputs whose extracted digit run parses to a value at or
above the overflow threshold, so that `float()` returns `inf`. -/
def strOverflows : PyVal → Bool
  | .vStr s =>
      match firstRunAux s.data with
      | some run =>
        match parseRun run with
        | some q => decide (ovfBound ≤ q)
        | none => false
      | none => false
  | _ => false

/-- Saturation of an exactly-computed double result to the representable
range: a finite value at or above the overflow threshold becomes the signed
infinity; special values are unchanged. -/
def satDouble : PyFloat → PyFloat
  | .finite q => if ovfBound ≤ |q| then (if 0 ≤ q then .inf else .negInf) else .finite q
  | x => x

/-- `PyFloat.div` with the IEEE double range: a finite quotient saturates to
a signed infinity at the overflow threshold (so `1e307 / 1e-10 = inf`), as
numpy's double division does. -/
def PyFloat.divDouble (a b : PyFloat) : PyFloat := satDouble (PyFloat.div a b)

/-- The implied-value expression of app.py lines 103-104 with the double
range: `np.where(d != 0, (tn / d).round(2), np.nan)` where the division
saturates at the overflow threshold. -/
def impliedDouble (tn d : PyFloat) : PyFloat :=
  if d.neq0 then (tn.divDouble d).round2 else .nan

/-- Diagnostic status column `状态`. -/
inductive Status where
  | consistent
  | consistentRounded
  | needsReview
  | insufficient
deriving DecidableEq, Repr

/-- Raw recognized line item: the five editable columns of the dataframe
(`品名`, `分类`, `识别数量`, `识别单价`, `识别总价`). -/
structure RawRow where
  name : PyVal
  category : PyVal
  quantity : PyVal
  unit_price : PyVal
  line_total : PyVal
deriving DecidableEq, Repr

/-- One output row of `recalculate_dataframe`: the raw columns plus the
derived columns `状态`, `计算总价`, `[按总价]推算数量`, `[按总价]推算单价`. -/
structure DiagRow where
  status : Status
  name : PyVal
  category : PyVal
  quantity : PyVal
  unit_price : PyVal
  line_total : PyVal
  computed_total : PyFloat
  implied_quantity : PyFloat
  implied_unit_price : PyFloat
deriving DecidableEq, Repr

/-- Normalized quantity (`数量_num`). -/
def quantityNum (r : RawRow) : PyFloat := clean_and_convert_to_numeric r.quantity

/-- Normalized unit price (`单价_num`). -/
def unitPriceNum (r : RawRow) : PyFloat := clean_and_convert_to_numeric r.unit_price

/-- Normalized line total (`总价_num`). -/
def lineTotalNum (r : RawRow) : PyFloat := clean_and_convert_to_numeric r.line_total

/-- Computed total `计算总价 = (数量_num * 单价_num).round(2)` (app.py line 97). -/
def computedTotal (r : RawRow) : PyFloat :=
  ((quantityNum r).mul (unitPriceNum r)).round2

/-- Per-row body of `recalculate_dataframe` (app.py lines 87-111): every
column expression there is elementwise, so the dataframe transformation is
this function mapped over the rows.  The status is the `np.where` chain of
lines 99-100 followed by the `信息不足` override of line 101; the implied
columns are the guarded divisions of lines 103-104. -/
def recalcRow (r : RawRow) : DiagRow :=
  let qn := quantityNum r
  let pn := unitPriceNum r
  let tn := lineTotalNum r
  let ct := (qn.mul pn).round2
  let st0 : Status :=
    if npIsclose ct tn then .consistent
    else if npIsclose ct.roundInt tn then .consistentRounded
    else .needsReview
  let st := if ct.isNan || tn.isNan then Status.insufficient else st0
  { status := st
    name := r.name
    category := r.category
    quantity := r.quantity
    unit_price := r.unit_price
    line_total := r.line_total
    computed_total := ct
    implied_quantity := if pn.neq0 then (tn.div pn).round2 else .nan
    implied_unit_price := if qn.neq0 then (tn.div qn).round2 else .nan }

/-- `recalculate_dataframe` on a whole table: elementwise, hence a map. -/
def recalculate (rows : List RawRow) : List DiagRow := rows.map recalcRow

/-- The raw (human-editable) columns of a diagnosed row, which is what a
second run of `recalculate_dataframe` reads (app.py line 211). -/
def toRaw (d : DiagRow) : RawRow :=
  { name := d.name
    category := d.category
    quantity := d.quantity
    unit_price := d.unit_price
    line_total := d.line_total }

/-- Python `str()` of a cell as used by `astype(str)` in the export filter.
Only non-emptiness after stripping matters there; the numeric renderings
below are nonempty and whitespace-free, as Python's are. -/
def pyStr : PyVal → String
  | .vNone => "None"
  | .vStr s => s
  | .vInt n => toString n
  | .vFloat (.finite q) => toString q
  | .vFloat .inf => "inf"
  | .vFloat .negInf => "-inf"
  | .vFloat .nan => "nan"

/-- Export-stage empty-row filter (app.py lines 222-226): keep only the rows
whose name column, as a stripped string, is nonempty
(`df['品名'].astype(str).str.strip() != ''`). -/
def exportFilter (rows : List DiagRow) : List DiagRow :=
  rows.filter (fun d => !(strBlank (pyStr d.name)))

/-- Scenario row of the spec: `{品名:"雪花纯生", 数量:"5", 单价:"85", 总价:"425"}`. -/
def row425 : RawRow := ⟨.vStr "雪花纯生", .vStr "其他", .vStr "5", .vStr "85", .vStr "425"⟩

/-- Scenario row of the spec: `{品名:"羊肉", 数量:"23", 单价:"15.9", 总价:"365"}`. -/
def row365 : RawRow := ⟨.vStr "羊肉", .vStr "羊肉类", .vStr "23", .vStr "15.9", .vStr "365"⟩

/-- Row whose computed total `5.0` and recognized total `5.004` differ by less
than `0.01` and agree after rounding to 2 decimals. -/
def rowC2ce : RawRow := ⟨.vStr "甲", .vNone, .vStr "1", .vStr "5", .vStr "5.004"⟩

/-- Row whose exact implied quantity `10 / 3` has more than 2 decimals. -/
def rowThird : RawRow := ⟨.vStr "乙", .vNone, .vStr "1", .vStr "3", .vStr "10"⟩

/-- Diagnosable row whose name is the empty string. -/
def rowNoName : RawRow := ⟨.vStr "", .vNone, .vStr "1", .vStr "2", .vStr "2"⟩

/-- Row with a zero recognized unit price. -/
def rowZeroPrice : RawRow := ⟨.vStr "丁", .vNone, .vStr "2", .vStr "0", .vStr "10"⟩

/-- The string of 309 nines: its value `10^309 - 1` is above the double
overflow threshold, so `float()` parses it as `inf`. -/
def nines309 : String := String.mk (List.replicate 309 '9')

/-- The string `"1"` followed by 307 zeros, i.e. `10^307`: below the double
overflow threshold, so it normalizes to a finite value. -/
def big307 : String := String.mk ('1' :: List.replicate 307 '0')

/-- Row whose recognized total normalizes to the finite `10^307` and whose
unit price normalizes to `10^-10`: the quotient `10^317` overflows the
double range, so the division of app.py line 103 yields `inf`. -/
def rowOverflow : RawRow :=
  ⟨.vStr "戊", .vNone, .vStr "1", .vStr "0.0000000001", .vStr big307⟩

/-- Status assignment exactly as the spec words it: `Insufficient` when the
computed total or the recognized total is missing, then `Consistent` on
closeness, then `Consistent-Rounded` on closeness after integer rounding,
else `NeedsReview`.  Compared below with the status `recalcRow` computes
(the code evaluates the closeness chain first and overrides with
`信息不足` afterwards). -/
def claimedStatus (ct tn : PyFloat) : Status :=
  if ct.isNan || tn.isNan then .insufficient
  else if npIsclose ct tn then .consistent
  else if npIsclose ct.roundInt tn then .consistentRounded
  else .needsReview

/-- Tolerance criterion exactly as the spec words it (claim C2): two finite
values are treated as equal when they round to the same value at 2 decimal
places or differ by less than an epsilon of `0.01`. -/
def claimedTolerance (a b : ℚ) : Bool :=
  decide (rhe (a * 100) = rhe (b * 100)) || decide (|a - b| < 1/100)

theorem qfloor_eq (q : ℚ) : qfloor q = Int.floor q := Rat.floor_def.symm

/-- Half-even rounding moves a rational by at most `1/2`. -/
theorem rhe_close (q : ℚ) : |(rhe q : ℚ) - q| ≤ 1/2 := by
  have h1 : ((qfloor q : ℤ) : ℚ) ≤ q := by
    rw [qfloor_eq]; exact Int.floor_le q
  have h2 : q < ((qfloor q : ℤ) : ℚ) + 1 := by
    rw [qfloor_eq]; exact Int.lt_floor_add_one q
  unfold rhe
  split
  · next h => rw [abs_le]; constructor <;> linarith
  · next h =>
      split
      · next h2x => push_cast; rw [abs_le]; constructor <;> linarith
      · next h3 =>
          have heq : q - ((qfloor q : ℤ) : ℚ) = 1/2 := by linarith
          split <;> (push_cast; rw [abs_le]; constructor <;> linarith)

/-- Rounding to 2 decimal places moves a rational by at most `1/200`. -/
theorem round2q_close (q : ℚ) : |round2q q - q| ≤ 1/200 := by
  have h := rhe_close (q * 100)
  unfold round2q
  have heq : (rhe (q * 100) : ℚ) / 100 - q = ((rhe (q * 100) : ℚ) - q * 100) / 100 := by
    ring
  rw [heq, abs_div, abs_of_pos (by norm_num : (0:ℚ) < (100:ℚ))]
  linarith

/-- A run accepted by `float()` denotes a nonnegative rational: the regex
`[\d\.]+` admits no sign. -/
theorem parseRun_nonneg (l : List Char) (q : ℚ) (h : parseRun l = some q) : 0 ≤ q := by
  unfold parseRun at h
  split at h
  · simp only [Option.some.injEq] at h
    subst h
    positivity
  · simp at h

/-- On a string input the normalizer yields `nan` or a nonnegative finite
value. -/
theorem cleanStr_nan_or_nonneg (s : String) :
    clean_and_convert_to_numeric (PyVal.vStr s) = PyFloat.nan ∨
    ∃ q : ℚ, clean_and_convert_to_numeric (PyVal.vStr s) = PyFloat.finite q ∧ 0 ≤ q := by
  unfold clean_and_convert_to_numeric
  by_cases hb : strBlank s = true
  · simp [hb]
  · rcases hr : firstRunAux s.data with _ | run
    · simp [hb, hr]
    · rcases hp : parseRun run with _ | q
      · simp [hb, hr, hp]
      · right
        exact ⟨q, by simp [hb, hr, hp], parseRun_nonneg run q hp⟩

/-- C1: for every row the engine assigns exactly one status by the rule
Insufficient (computed total or recognized total missing) / Consistent
(numerically close) / Consistent-Rounded (close after integer rounding) /
NeedsReview, in that priority order; the row `{数量:"5", 单价:"85",
总价:"425"}` gets computed total `425.0` and status Consistent. -/
theorem c1_status_rule (r : RawRow) :
    (recalcRow r).status = claimedStatus (computedTotal r) (lineTotalNum r) ∧
    (recalcRow row425).computed_total = PyFloat.finite 425 ∧
    (recalcRow row425).status = Status.consistent :=
  ⟨rfl, by decide, by decide⟩

/-- C2 (amended): the engine marks a row Consistent exactly when both the
computed total and the recognized total are present and `np.isclose` holds,
i.e. `|computed - total| <= 1e-8 + 1e-5 * |total|` — not the spec's
round-to-2-decimals-or-0.01 criterion; the row `{数量:"23", 单价:"15.9",
总价:"365"}` has computed total `365.7` and status NeedsReview. -/
theorem c2_consistent_tolerance (r : RawRow) :
    ((recalcRow r).status = Status.consistent ↔
      (computedTotal r).isNan = false ∧ (lineTotalNum r).isNan = false ∧
        npIsclose (computedTotal r) (lineTotalNum r) = true) ∧
    (recalcRow row365).computed_total = PyFloat.finite (3657/10) ∧
    (recalcRow row365).status = Status.needsReview := by
  refine ⟨?_, by decide, by decide⟩
  have h : (recalcRow r).status = claimedStatus (computedTotal r) (lineTotalNum r) := rfl
  rw [h]
  unfold claimedStatus
  cases hc : (computedTotal r).isNan <;> cases ht : (lineTotalNum r).isNan <;>
    cases hcl : npIsclose (computedTotal r) (lineTotalNum r) <;>
      cases hcr : npIsclose (computedTotal r).roundInt (lineTotalNum r) <;>
        simp [hc, ht, hcl, hcr]

/-- C2 counterexample: the row `{数量:"1", 单价:"5", 总价:"5.004"}` satisfies
the spec's tolerance criterion (`5` and `5.004` round to the same 2-decimal
value and differ by less than `0.01`), yet the code gives NeedsReview, not
Consistent. -/
theorem c2_tolerance_counterexample :
    claimedTolerance 5 (1251/250) = true ∧
    computedTotal rowC2ce = PyFloat.finite 5 ∧
    lineTotalNum rowC2ce = PyFloat.finite (1251/250) ∧
    (recalcRow rowC2ce).status = Status.needsReview := by
  refine ⟨by decide, by decide, by decide, by decide⟩

/-- C3 (amended): the program exposes only the diagnose-only reconciliation;
no force-correct operation or switch exists.  `recalculate_dataframe` passes
every raw field through unchanged (in particular it never overwrites the
recognized line total), and its status codomain has no Corrected value. -/
theorem c3_diagnose_only (r : RawRow) :
    (recalcRow r).name = r.name ∧
    (recalcRow r).category = r.category ∧
    (recalcRow r).quantity = r.quantity ∧
    (recalcRow r).unit_price = r.unit_price ∧
    (recalcRow r).line_total = r.line_total :=
  ⟨rfl, rfl, rfl, rfl, rfl⟩

/-- C3 counterexample: on the NeedsReview row `{数量:"23", 单价:"15.9",
总价:"365"}` the engine leaves the recognized line total `"365"` untouched
and the status stays NeedsReview — the claimed force-correct overwrite with
`"365.70"` and a Corrected status happens nowhere. -/
theorem c3_force_correct_counterexample :
    (recalcRow row365).status = Status.needsReview ∧
    (recalcRow row365).line_total = PyVal.vStr "365" ∧
    (recalcRow row365).line_total ≠ PyVal.vStr "365.70" := by
  refine ⟨by decide, by decide, by decide⟩

/-- C4 (amended): the normalizer returns Missing for `None` and for strings
blank after stripping; a numeric input is returned as `float(value)` — not
Missing — with an int beyond the double range raising `OverflowError`
instead of returning; for other strings the first maximal run of `[\\d\\.]+`
is extracted, where `\\d` matches Unicode decimal digits (so `"85元"` gives
`85.0`, `"１２３"` gives `123.0` and `"٣斤"` gives `3.0`), and Missing is
returned when no run exists or the run fails to parse as a float (as for
`"12.5.3"`). -/
theorem c4_normalize_rules :
    clean_and_convert_to_numeric PyVal.vNone = PyFloat.nan ∧
    (∀ s : String, strBlank s = true →
      clean_and_convert_to_numeric (PyVal.vStr s) = PyFloat.nan) ∧
    (∀ n : Int, intOverflows (PyVal.vInt n) = false →
      cleanDouble (PyVal.vInt n) = some (PyFloat.finite (n : ℚ))) ∧
    (∀ x : PyFloat, clean_and_convert_to_numeric (PyVal.vFloat x) = x) ∧
    (∀ s : String, firstRunAux s.data = none →
      clean_and_convert_to_numeric (PyVal.vStr s) = PyFloat.nan) ∧
    (∀ s : String, ∀ run : List Char, firstRunAux s.data = some run → parseRun run = none →
      clean_and_convert_to_numeric (PyVal.vStr s) = PyFloat.nan) ∧
    (∀ s : String, ∀ run : List Char, ∀ q : ℚ, strBlank s = false →
      firstRunAux s.data = some run → parseRun run = some q → q < ovfBound →
      cleanDouble (PyVal.vStr s) = some (PyFloat.finite q) ∧
      clean_and_convert_to_numeric (PyVal.vStr s) = PyFloat.finite q) ∧
    clean_and_convert_to_numeric (PyVal.vStr "85元") = PyFloat.finite 85 ∧
    clean_and_convert_to_numeric (PyVal.vStr "１２３") = PyFloat.finite 123 ∧
    clean_and_convert_to_numeric (PyVal.vStr "٣斤") = PyFloat.finite 3 ∧
    clean_and_convert_to_numeric (PyVal.vStr "12.5.3") = PyFloat.nan := by
  refine ⟨rfl, ?_, ?_, fun x => rfl, ?_, ?_, ?_, by decide, by decide, by decide, by decide⟩
  · intro s h
    unfold clean_and_convert_to_numeric
    simp [h]
  · intro n h
    simp only [intOverflows, decide_eq_false_iff_not, not_le] at h
    simp [cleanDouble, not_le.mpr h]
  · intro s h
    unfold clean_and_convert_to_numeric
    by_cases hb : strBlank s = true <;> simp [hb, h]
  · intro s run hr hp
    unfold clean_and_convert_to_numeric
    by_cases hb : strBlank s = true <;> simp [hb, hr, hp]
  · intro s run q hb hr hp hq
    unfold cleanDouble clean_and_convert_to_numeric
    simp [hb, hr, hp, floatOfPos, not_le.mpr hq]

/-- C4 witness: the rules applied at concrete inputs (a blank string, a
string with no digit run, an int inside the double range, and a parsed
run). -/
theorem c4_normalize_rules_witness :
    clean_and_convert_to_numeric (PyVal.vStr " ") = PyFloat.nan ∧
    clean_and_convert_to_numeric (PyVal.vStr "鱼") = PyFloat.nan ∧
    cleanDouble (PyVal.vInt 5) = some (PyFloat.finite 5) ∧
    clean_and_convert_to_numeric (PyVal.vStr "约12.5斤") = PyFloat.finite (25/2) :=
  ⟨c4_normalize_rules.2.1 " " (by decide),
   c4_normalize_rules.2.2.2.2.1 "鱼" (by decide),
   c4_normalize_rules.2.2.1 5 (by decide),
   (c4_normalize_rules.2.2.2.2.2.2.1 "约12.5斤" ['1', '2', '.', '5'] (25/2)
     (by decide) (by decide) (by decide) (by decide)).2⟩

/-- C4 counterexample: the claim says every non-string input normalizes to
Missing, but the code returns `float(value)` for numeric inputs: the int `5`
normalizes to `5.0`, not Missing. -/
theorem c4_not_string_counterexample :
    clean_and_convert_to_numeric (PyVal.vInt 5) = PyFloat.finite 5 ∧
    PyFloat.finite 5 ≠ PyFloat.nan := by
  refine ⟨by decide, by decide⟩

/-- C5 (amended): the normalizer can raise — exactly the int inputs whose
magnitude reaches the double overflow threshold make `float(value)` raise
`OverflowError` — and when it does return, the result is a finite float or
Missing unless the input is itself a non-finite float (passed through
unchanged) or a string whose extracted digit run reaches the overflow
threshold (parsed by `float()` as `inf`). -/
theorem c5_no_error_result (v : PyVal) :
    (cleanDouble v = none → intOverflows v = true) ∧
    (intOverflows v = true → cleanDouble v = none) ∧
    (∀ x : PyFloat, cleanDouble v = some x →
      x.isFinite = true ∨ x.isNan = true ∨
      (v = PyVal.vFloat x ∧ x.isInf = true) ∨ strOverflows v = true) := by
  cases v with
  | vNone =>
      refine ⟨?_, ?_, ?_⟩
      · intro h; simp [cleanDouble] at h
      · intro h; simp [intOverflows] at h
      · intro x h
        simp only [cleanDouble, Option.some.injEq] at h
        subst h
        exact Or.inr (Or.inl rfl)
  | vInt n =>
      refine ⟨?_, ?_, ?_⟩
      · intro h
        simp only [cleanDouble] at h
        split at h
        · next hge => simp [intOverflows, hge]
        · simp at h
      · intro h
        simp only [intOverflows, decide_eq_true_eq] at h
        simp [cleanDouble, h]
      · intro x h
        simp only [cleanDouble] at h
        split at h
        · simp at h
        · simp only [Option.some.injEq] at h
          subst h
          exact Or.inl rfl
  | vFloat y =>
      refine ⟨?_, ?_, ?_⟩
      · intro h; simp [cleanDouble] at h
      · intro h; simp [intOverflows] at h
      · intro x h
        simp only [cleanDouble, Option.some.injEq] at h
        subst h
        cases y with
        | finite q => exact Or.inl rfl
        | nan => exact Or.inr (Or.inl rfl)
        | inf => exact Or.inr (Or.inr (Or.inl ⟨rfl, rfl⟩))
        | negInf => exact Or.inr (Or.inr (Or.inl ⟨rfl, rfl⟩))
  | vStr s =>
      refine ⟨?_, ?_, ?_⟩
      · intro h
        simp only [cleanDouble] at h
        by_cases hb : strBlank s = true
        · simp [hb] at h
        · rcases hr : firstRunAux s.data with _ | run
          · simp [hb, hr] at h
          · rcases hp : parseRun run with _ | q <;> simp [hb, hr, hp] at h
      · intro h; simp [intOverflows] at h
      · intro x h
        simp only [cleanDouble] at h
        by_cases hb : strBlank s = true
        · rw [if_pos hb] at h
          simp only [Option.some.injEq] at h
          subst h
          exact Or.inr (Or.inl rfl)
        · rw [if_neg hb] at h
          rcases hr : firstRunAux s.data with _ | run
          · simp only [hr, Option.some.injEq] at h
            subst h
            exact Or.inr (Or.inl rfl)
          · simp only [hr] at h
            rcases hp : parseRun run with _ | q
            · simp only [hp, Option.some.injEq] at h
              subst h
              exact Or.inr (Or.inl rfl)
            · simp only [hp, Option.some.injEq] at h
              unfold floatOfPos at h
              by_cases hq : ovfBound ≤ q
              · rw [if_pos hq] at h
                subst h
                refine Or.inr (Or.inr (Or.inr ?_))
                simp [strOverflows, hr, hp, hq]
              · rw [if_neg hq] at h
                subst h
                exact Or.inl rfl

/-- C5 witness: `float(10^400)` raises (the int conjunct applied), and the
result conjunct applied to the 309-nines string, whose run overflows. -/
theorem c5_no_error_result_witness :
    cleanDouble (PyVal.vInt (10 ^ 400)) = none ∧
    (PyFloat.inf.isFinite = true ∨ PyFloat.inf.isNan = true ∨
      (PyVal.vStr nines309 = PyVal.vFloat PyFloat.inf ∧ PyFloat.inf.isInf = true) ∨
      strOverflows (PyVal.vStr nines309) = true) :=
  ⟨(c5_no_error_result (PyVal.vInt (10 ^ 400))).2.1 (by decide),
   (c5_no_error_result (PyVal.vStr nines309)).2.2 PyFloat.inf (by decide)⟩

/-- C5 counterexample: "never raises and always Missing-or-finite" fails
three ways — `float(10^400)` raises `OverflowError` in the int branch, the
string of 309 nines parses to `inf`, and a `float('inf')` input passes
through as `inf`. -/
theorem c5_infinite_counterexample :
    cleanDouble (PyVal.vInt (10 ^ 400)) = none ∧
    cleanDouble (PyVal.vStr nines309) = some PyFloat.inf ∧
    cleanDouble (PyVal.vFloat PyFloat.inf) = some PyFloat.inf ∧
    PyFloat.inf.isFinite = false ∧ PyFloat.inf.isNan = false := by
  refine ⟨by decide, by decide, by decide, by decide, by decide⟩

/-- Dividing by `nan` yields `nan` whatever the numerator. -/
theorem div_nan_right (x : PyFloat) : x.div PyFloat.nan = PyFloat.nan := by
  cases x <;> rfl

/-- Range-aware division by `nan` also yields `nan`. -/
theorem divDouble_nan_right (x : PyFloat) : x.divDouble PyFloat.nan = PyFloat.nan := by
  cases x <;> rfl

/-- C6 (amended): a zero or missing unit price makes the implied quantity
Missing and a zero or missing quantity makes the implied unit price Missing
(never an exception, never an infinity from the guard); but the division is
not infinity-free: with the line total and a nonzero denominator both
present, the implied value is the finite rounded quotient only while the
exact quotient stays below the double overflow threshold, and saturates to
an infinity at or above it (e.g. line total `1e307` over unit price
`1e-10`), as it also does when the line total is itself infinite. -/
theorem c6_division_guards (r : RawRow) (t b : ℚ) :
    ((unitPriceNum r).isNan = true ∨ unitPriceNum r = PyFloat.finite 0 →
      impliedDouble (lineTotalNum r) (unitPriceNum r) = PyFloat.nan ∧
      (recalcRow r).implied_quantity = PyFloat.nan) ∧
    ((quantityNum r).isNan = true ∨ quantityNum r = PyFloat.finite 0 →
      impliedDouble (lineTotalNum r) (quantityNum r) = PyFloat.nan ∧
      (recalcRow r).implied_unit_price = PyFloat.nan) ∧
    (lineTotalNum r = PyFloat.finite t → unitPriceNum r = PyFloat.finite b → b ≠ 0 →
      |t / b| < ovfBound →
      impliedDouble (lineTotalNum r) (unitPriceNum r) = PyFloat.finite (round2q (t / b))) ∧
    (lineTotalNum r = PyFloat.finite t → unitPriceNum r = PyFloat.finite b → b ≠ 0 →
      ovfBound ≤ |t / b| →
      (impliedDouble (lineTotalNum r) (unitPriceNum r)).isInf = true) := by
  have hiq : (recalcRow r).implied_quantity =
      (if (unitPriceNum r).neq0 then ((lineTotalNum r).div (unitPriceNum r)).round2
        else PyFloat.nan) := rfl
  have hip : (recalcRow r).implied_unit_price =
      (if (quantityNum r).neq0 then ((lineTotalNum r).div (quantityNum r)).round2
        else PyFloat.nan) := rfl
  refine ⟨?_, ?_, ?_, ?_⟩
  · rintro (h | h)
    · have hn : unitPriceNum r = PyFloat.nan := by
        cases hu : unitPriceNum r <;> simp_all [PyFloat.isNan]
      rw [hiq, hn]
      simp [impliedDouble, PyFloat.neq0, div_nan_right, divDouble_nan_right, PyFloat.round2]
    · rw [hiq, h]
      simp [impliedDouble, PyFloat.neq0]
  · rintro (h | h)
    · have hn : quantityNum r = PyFloat.nan := by
        cases hu : quantityNum r <;> simp_all [PyFloat.isNan]
      rw [hip, hn]
      simp [impliedDouble, PyFloat.neq0, div_nan_right, divDouble_nan_right, PyFloat.round2]
    · rw [hip, h]
      simp [impliedDouble, PyFloat.neq0]
  · intro ht hb hbne hlt
    rw [ht, hb]
    have hne : (PyFloat.finite b).neq0 = true := by simp [PyFloat.neq0, hbne]
    have hd : (PyFloat.finite t).div (PyFloat.finite b) = PyFloat.finite (t / b) := by
      simp [PyFloat.div, hbne]
    unfold impliedDouble PyFloat.divDouble
    rw [if_pos hne, hd]
    simp [satDouble, not_le.mpr hlt, PyFloat.round2]
  · intro ht hb hbne hge
    rw [ht, hb]
    have hne : (PyFloat.finite b).neq0 = true := by simp [PyFloat.neq0, hbne]
    have hd : (PyFloat.finite t).div (PyFloat.finite b) = PyFloat.finite (t / b) := by
      simp [PyFloat.div, hbne]
    unfold impliedDouble PyFloat.divDouble
    rw [if_pos hne, hd]
    simp only [satDouble, if_pos hge]
    split <;> rfl

/-- C6 witness: the guard applied at the zero-price row, and the finite
below-threshold case applied at the `10 / 3` row. -/
theorem c6_division_guards_witness :
    (impliedDouble (lineTotalNum rowZeroPrice) (unitPriceNum rowZeroPrice) = PyFloat.nan ∧
      (recalcRow rowZeroPrice).implied_quantity = PyFloat.nan) ∧
    impliedDouble (lineTotalNum rowThird) (unitPriceNum rowThird) =
      PyFloat.finite (round2q (10 / 3)) :=
  ⟨(c6_division_guards rowZeroPrice 0 1).1 (Or.inr (by decide)),
   (c6_division_guards rowThird 10 3).2.2.1 (by decide) (by decide) (by norm_num) (by decide)⟩

/-- C6 counterexample: with the finite recognized total `10^307` (a 308-digit
string) and unit price `"0.0000000001"`, the double division of line 103
overflows: the implied quantity is `inf` although the normalized line total
is finite; an infinite line total propagates to `inf` too. -/
theorem c6_infinity_counterexample :
    lineTotalNum rowOverflow = PyFloat.finite ((10 ^ 307 : ℕ) : ℚ) ∧
    (lineTotalNum rowOverflow).isInf = false ∧
    unitPriceNum rowOverflow = PyFloat.finite (1 / 10 ^ 10) ∧
    impliedDouble (lineTotalNum rowOverflow) (unitPriceNum rowOverflow) = PyFloat.inf ∧
    impliedDouble PyFloat.inf (PyFloat.finite 2) = PyFloat.inf := by
  refine ⟨by decide, by decide, by decide, by decide, by decide⟩

/-- Below the overflow threshold the range-aware normalizer agrees with the
idealized one: every non-infinite value it returns is exactly what
`clean_and_convert_to_numeric` computes. -/
theorem cleanDouble_agrees (v : PyVal) (x : PyFloat) (h : cleanDouble v = some x)
    (hx : x.isInf = false) : clean_and_convert_to_numeric v = x := by
  cases v with
  | vNone =>
      simp only [cleanDouble, Option.some.injEq] at h
      subst h; rfl
  | vInt n =>
      simp only [cleanDouble] at h
      split at h
      · simp at h
      · simp only [Option.some.injEq] at h
        subst h; rfl
  | vFloat y =>
      simp only [cleanDouble, Option.some.injEq] at h
      subst h; rfl
  | vStr s =>
      simp only [cleanDouble] at h
      simp only [clean_and_convert_to_numeric]
      by_cases hb : strBlank s = true
      · rw [if_pos hb] at h
        rw [if_pos hb]
        simp only [Option.some.injEq] at h
        exact h
      · rw [if_neg hb] at h
        rw [if_neg hb]
        rcases hr : firstRunAux s.data with _ | run
        · simp only [hr, Option.some.injEq] at h
          simp only [hr]
          exact h
        · simp only [hr] at h ⊢
          rcases hp : parseRun run with _ | q
          · simp only [hp, Option.some.injEq] at h
            simp only [hp]
            exact h
          · simp only [hp, Option.some.injEq] at h
            simp only [hp]
            unfold floatOfPos at h
            by_cases hq : ovfBound ≤ q
            · rw [if_pos hq] at h
              subst h
              simp [PyFloat.isInf] at hx
            · rw [if_neg hq] at h
              exact h

/-- C7 (amended): when the normalized line total is present and the
denominator is present and nonzero, the implied quantity (resp. implied unit
price) is the exact quotient rounded half-even to 2 decimal places — within
`1/200` of the exact quotient, but not the exact quotient itself (see the
counterexample); the recognized quantity plays no role in the implied
quantity. -/
theorem c7_implied_quotients (r : RawRow) (t b q : ℚ) :
    (lineTotalNum r = PyFloat.finite t → unitPriceNum r = PyFloat.finite b → b ≠ 0 →
      (recalcRow r).implied_quantity = PyFloat.finite (round2q (t / b)) ∧
        |round2q (t / b) - t / b| ≤ 1/200) ∧
    (lineTotalNum r = PyFloat.finite t → quantityNum r = PyFloat.finite q → q ≠ 0 →
      (recalcRow r).implied_unit_price = PyFloat.finite (round2q (t / q)) ∧
        |round2q (t / q) - t / q| ≤ 1/200) := by
  constructor
  · intro ht hb hbne
    have hiq : (recalcRow r).implied_quantity =
        (if (unitPriceNum r).neq0 then ((lineTotalNum r).div (unitPriceNum r)).round2
          else PyFloat.nan) := rfl
    rw [hiq, ht, hb]
    refine ⟨?_, round2q_close _⟩
    simp [PyFloat.neq0, hbne, PyFloat.div, PyFloat.round2]
  · intro ht hq hqne
    have hip : (recalcRow r).implied_unit_price =
        (if (quantityNum r).neq0 then ((lineTotalNum r).div (quantityNum r)).round2
          else PyFloat.nan) := rfl
    rw [hip, ht, hq]
    refine ⟨?_, round2q_close _⟩
    simp [PyFloat.neq0, hqne, PyFloat.div, PyFloat.round2]

/-- C7 witness: on the row `{数量:"1", 单价:"3", 总价:"10"}` the implied
quantity is the 2-decimal rounding of `10 / 3`, within `1/200` of it. -/
theorem c7_implied_quotients_witness :
    (recalcRow rowThird).implied_quantity = PyFloat.finite (round2q (10 / 3)) ∧
    |round2q ((10 : ℚ) / 3) - 10 / 3| ≤ 1/200 :=
  (c7_implied_quotients rowThird 10 3 1).1 (by decide) (by decide) (by norm_num)

/-- C7 counterexample: on the row `{数量:"1", 单价:"3", 总价:"10"}` the
quantity and unit price are present and the unit price is nonzero, yet the
implied quantity is `3.33`, not the exact quotient `10 / 3`. -/
theorem c7_exactness_counterexample :
    quantityNum rowThird = PyFloat.finite 1 ∧
    unitPriceNum rowThird = PyFloat.finite 3 ∧
    lineTotalNum rowThird = PyFloat.finite 10 ∧
    (recalcRow rowThird).implied_quantity = PyFloat.finite (333/100) ∧
    (333 : ℚ)/100 ≠ 10/3 := by
  refine ⟨by decide, by decide, by decide, by decide, by decide⟩

/-- C8: reconciliation is deterministic and idempotent: the engine preserves
the raw fields, so re-running it on its own output (as the app does after
each edit) reproduces exactly the same derived fields, rowwise and
tablewise. -/
theorem c8_idempotent (r : RawRow) (rows : List RawRow) :
    toRaw (recalcRow r) = r ∧
    recalcRow (toRaw (recalcRow r)) = recalcRow r ∧
    recalculate ((recalculate rows).map toRaw) = recalculate rows := by
  refine ⟨rfl, rfl, ?_⟩
  simp [recalculate, List.map_map, Function.comp]
  exact fun a _ => rfl

/-- C9 (amended): the reconciliation engine itself outputs exactly one
diagnosed row per input row, in input order, each carrying a status; but the
export stage then drops every row whose name is blank, so such rows do not
reach the merged export (see the counterexample). -/
theorem c9_row_preservation (rows : List RawRow) (i : Nat) (ds : List DiagRow) (d : DiagRow) :
    (recalculate rows).length = rows.length ∧
    (recalculate rows)[i]? = (rows[i]?).map recalcRow ∧
    (d ∈ exportFilter ds ↔ d ∈ ds ∧ strBlank (pyStr d.name) = false) := by
  refine ⟨by simp [recalculate], by simp [recalculate], ?_⟩
  simp [exportFilter, List.mem_filter]

/-- C9 counterexample: a diagnosed row whose name is the empty string is
dropped by the export filter, so the exported output has no row for it —
"no row is ever silently dropped from the output" fails past the engine. -/
theorem c9_dropped_row_counterexample :
    ([rowNoName] : List RawRow).length = 1 ∧
    (recalculate [rowNoName]).length = 1 ∧
    (recalcRow rowNoName).status = Status.consistent ∧
    (exportFilter (recalculate [rowNoName])).length = 0 := by
  refine ⟨rfl, rfl, by decide, by decide⟩

/-- C10: on any string input the normalizer returns Missing or a value that
is at least zero (the extraction pattern has no sign), and `"-5"`
normalizes to `5.0` with the minus sign discarded; a numeric (non-string)
input is returned as a float unchanged, which is the only way to obtain a
negative result (established by `c4_normalize_rules`'s int/float clauses
for the engine side). -/
theorem c10_string_nonneg (s : String) :
    (clean_and_convert_to_numeric (PyVal.vStr s) = PyFloat.nan ∨
      ∃ q : ℚ, clean_and_convert_to_numeric (PyVal.vStr s) = PyFloat.finite q ∧ 0 ≤ q) ∧
    clean_and_convert_to_numeric (PyVal.vStr "-5") = PyFloat.finite 5 ∧
    clean_and_convert_to_numeric (PyVal.vInt (-3)) = PyFloat.finite (-3) :=
  ⟨cleanStr_nan_or_nonneg s, by decide, by decide⟩
